import Mathlib

/-! Overview:
Verification of the core extraction layer of the `cryo` repository:
the VM-trace flattener (`collectors/vm_traces.rs`), the code-diff
normalizer (`datasets/code_diffs.rs`), and the fetcher / gas-usage
resolver (`types/sources.rs`), shallowly embedded in Lean 4.

Rust `Vec<u8>` is modelled as `List Nat` (each entry < 256 in practice),
`u32`/`u64`/`usize`/`U256` as `Nat` with explicit `% 2^32` where the source
performs an `as_u32` truncation, `Option` as `Option`, `Result` as `Except`,
panics (`expect`) as `Option` with `none` for the panic.
-/

namespace Cryo

/-- Byte strings (`Vec<u8>` in the source). -/
abbrev Bytes := List Nat

/-- Model of `H256::zero().as_bytes().to_vec()`: thirty-two zero bytes. -/
def h256_zero_bytes : Bytes := List.replicate 32 0

/-- Big-endian byte encoding of one 256-bit word.
Modelled from the spec: the repository's `ToVecU8` conversion of a 256-bit
word to raw bytes is not under `src/`; it is modelled as the standard
32-byte big-endian encoding (the claims only depend on presence/absence of
the encoded value, never on the encoding itself). -/
def u256_to_vec_u8 (n : Nat) : Bytes :=
  (List.range 32).map (fun i => n / 256 ^ (31 - i) % 256)

/-- Model of `ToVecU8` for a vector of 256-bit words: concatenation of the
encodings of its elements (see `u256_to_vec_u8`). -/
def list_u256_to_vec_u8 (ns : List Nat) : Bytes :=
  (ns.map u256_to_vec_u8).flatten

/-! Part: Schemas

The `Table` type and the `store!` macro live outside `src/`; they are
modelled from the spec. -/

/-- Dataset kinds (`Datatype` enum); only the variants the embedded code
mentions are included. -/
inductive Datatype where
  | VmTraces
  | BalanceDiffs
  | CodeDiffs
  | NonceDiffs
  | StorageDiffs
deriving DecidableEq, Repr

/-- Modelled from the spec: a schema (`Table`) is "the ordered set of wanted
column names, plus a membership query used to skip optional decoding work". -/
structure Table where
  columns : List String
deriving DecidableEq, Repr

/-- The schema membership query (`Table::has_column`). -/
def Table.has_column (t : Table) (name : String) : Bool :=
  t.columns.contains name

/-- The `Schemas` registry (`HashMap<Datatype, Table>`), modelled as a
partial map so `schemas.get(&datatype)` is function application. -/
abbrev Schemas := Datatype → Option Table

/-- Modelled from the spec: the `store!` macro performs "an explicit
wanted-columns check before each optional write" — it appends the value to
the column exactly when the schema designates the column as wanted, and
leaves the column untouched otherwise. -/
def storeIf {α : Type} (schema : Table) (name : String) (col : List α) (v : α) : List α :=
  if schema.has_column name then col ++ [v] else col

/-! Part: The VM trace tree (`ethers::types::VMTrace` / `VMOperation`) -/

/-- A memory write recorded by an executed operation (`MemoryDiff`). -/
structure MemoryDiff where
  off : Nat
  data : Bytes
deriving DecidableEq, Repr

/-- A storage write recorded by an executed operation (`StorageDiff`);
`key` and `val` are 256-bit words. -/
structure StorageDiff where
  key : Nat
  val : Nat
deriving DecidableEq, Repr

/-- The execution outcome of one operation (`VMExecutedOperation`):
gas used, pushed stack words, and independently optional memory and
storage writes. -/
structure VMExecutedOperation where
  used : Nat
  push : List Nat
  mem : Option MemoryDiff
  store : Option StorageDiff
deriving DecidableEq, Repr

/-- Model of `ExecutedInstruction`: a decoded opcode mnemonic or a verbatim
unrecognized string. -/
inductive ExecutedInstruction where
  | known (op : String)
  | unknown (op : String)
deriving DecidableEq, Repr

/-- One node of the VM trace tree (`VMOperation`).  `sub` is the optional
nested sub-trace (`Option<VMTrace>`, a `VMTrace` being a contract `code`
plus its list of operations, represented here as the pair). -/
inductive VMOperation where
  | mk (pc : Nat) (cost : Nat) (ex : Option VMExecutedOperation)
      (sub : Option (Bytes × List VMOperation)) (op : ExecutedInstruction)

/-- Program counter of a trace node. -/
def VMOperation.pcOf : VMOperation → Nat
  | .mk p _ _ _ _ => p

/-- Gas cost of a trace node. -/
def VMOperation.costOf : VMOperation → Nat
  | .mk _ c _ _ _ => c

/-- Execution outcome of a trace node. -/
def VMOperation.exOf : VMOperation → Option VMExecutedOperation
  | .mk _ _ e _ _ => e

/-- Model of `ethers::types::VMTrace`: the code being executed plus the list of
operations executed at this call depth. -/
structure VMTrace where
  code : Bytes
  ops : List VMOperation

/-! Part: State diffs (`ethers::types::StateDiff` / `Diff`) -/

/-- The four-way before/after diff shape (`ethers::types::Diff`).
`changed` carries the `ChangedType { from, to }` pair. -/
inductive Diff (α : Type) where
  | Same
  | Born (v : α)
  | Died (v : α)
  | Changed (fromv : α) (tov : α)
deriving DecidableEq, Repr

/-- Per-account state diff (`AccountDiff`); the code-diff dataset only
reads the `code` field. -/
structure AccountDiff where
  balance : Diff Nat
  nonce : Diff Nat
  code : Diff Bytes
  storage : List (Nat × Diff Nat)
deriving DecidableEq, Repr

/-- Model of `ethers::types::StateDiff`: per-address account diffs, in the map's
iteration order. -/
abbrev StateDiff := List (Bytes × AccountDiff)

/-- Model of `ethers::types::BlockTrace`, restricted to the fields the embedded
code reads: the optional VM trace and the optional state diff. -/
structure BlockTrace where
  vm_trace : Option VMTrace
  state_diff : Option StateDiff

/-! Part: VM trace flattening (`collectors/vm_traces.rs`) -/

/-- The VM-trace column store (`VmTraceColumns`): one growable column per
field plus the row counter `n_rows`. -/
structure VmTraceColumns where
  block_number : List (Option Nat)
  transaction_hash : List (Option Bytes)
  transaction_position : List Nat
  pc : List Nat
  cost : List Nat
  used : List (Option Nat)
  push : List (Option Bytes)
  mem_off : List (Option Nat)
  mem_data : List (Option Bytes)
  storage_key : List (Option Bytes)
  storage_val : List (Option Bytes)
  op : List String
  n_rows : Nat
deriving DecidableEq, Repr

/-- Model of `VmTraceColumns::default()`: every column empty, counter zero. -/
def VmTraceColumns.default : VmTraceColumns :=
  ⟨[], [], [], [], [], [], [], [], [], [], [], [], 0⟩

/-- The body of the `for opcode in vm_trace.ops` loop of `add_ops`
(lines 83–121 of `vm_traces.rs`), for one opcode, without the recursion
into `opcode.sub`: increment `n_rows`, store the correlation fields, `pc`
and `cost`, then the execution-outcome fields, then the mnemonic. -/
def emitOpRow (schema : Table) (columns : VmTraceColumns) (number : Option Nat)
    (tx_hash : Option Bytes) (tx_pos : Nat) (opcode : VMOperation) : VmTraceColumns :=
  match opcode with
  | .mk pcv costv exv _ opv =>
    let columns := { columns with n_rows := columns.n_rows + 1 }
    let columns := { columns with
      block_number := storeIf schema "block_number" columns.block_number number,
      transaction_hash := storeIf schema "transaction_hash" columns.transaction_hash tx_hash,
      transaction_position :=
        storeIf schema "transaction_position" columns.transaction_position (tx_pos % 2 ^ 32),
      pc := storeIf schema "pc" columns.pc pcv,
      cost := storeIf schema "cost" columns.cost costv }
    let columns :=
      match exv with
      | some ex =>
        let columns := { columns with
          used := storeIf schema "used" columns.used (some ex.used),
          push := storeIf schema "push" columns.push (some (list_u256_to_vec_u8 ex.push)) }
        let columns :=
          match ex.mem with
          | some mem => { columns with
              mem_off := storeIf schema "mem_off" columns.mem_off (some (mem.off % 2 ^ 32)),
              mem_data := storeIf schema "mem_data" columns.mem_data (some mem.data) }
          | none => { columns with
              mem_off := storeIf schema "mem_off" columns.mem_off none,
              mem_data := storeIf schema "mem_data" columns.mem_data none }
        match ex.store with
        | some st => { columns with
            storage_key :=
              storeIf schema "storage_key" columns.storage_key (some (u256_to_vec_u8 st.key)),
            storage_val :=
              storeIf schema "storage_val" columns.storage_val (some (u256_to_vec_u8 st.val)) }
        | none => { columns with
            storage_key := storeIf schema "storage_key" columns.storage_key none,
            storage_val := storeIf schema "storage_val" columns.storage_val none }
      | none => { columns with
          used := storeIf schema "used" columns.used none,
          push := storeIf schema "push" columns.push none,
          mem_off := storeIf schema "mem_off" columns.mem_off none,
          mem_data := storeIf schema "mem_data" columns.mem_data none,
          storage_key := storeIf schema "storage_key" columns.storage_key none,
          storage_val := storeIf schema "storage_val" columns.storage_val none }
    if schema.has_column "op" then
      match opv with
      | .known o => { columns with op := storeIf schema "op" columns.op o }
      | .unknown o => { columns with op := storeIf schema "op" columns.op o }
    else columns

/-- The `for opcode in vm_trace.ops` loop of `add_ops`: emit the opcode's
row, recurse into its sub-trace when present, then continue with the rest
of the list. -/
def add_ops_go (ops : List VMOperation) (schema : Table) (columns : VmTraceColumns)
    (number : Option Nat) (tx_hash : Option Bytes) (tx_pos : Nat) : VmTraceColumns :=
  match ops with
  | [] => columns
  | opcode@(.mk _ _ _ (some sub) _) :: rest =>
    add_ops_go rest schema
      (add_ops_go sub.2 schema (emitOpRow schema columns number tx_hash tx_pos opcode)
        number tx_hash tx_pos)
      number tx_hash tx_pos
  | opcode@(.mk _ _ _ none _) :: rest =>
    add_ops_go rest schema (emitOpRow schema columns number tx_hash tx_pos opcode)
      number tx_hash tx_pos
termination_by sizeOf ops
decreasing_by
  all_goals simp_wf
  · cases sub
    simp_arith

/-- Model of `add_ops` (`vm_traces.rs` lines 74–127): flatten one VM trace into
the column store. -/
def add_ops (vm_trace : VMTrace) (schema : Table) (columns : VmTraceColumns)
    (number : Option Nat) (tx_hash : Option Bytes) (tx_pos : Nat) : VmTraceColumns :=
  add_ops_go vm_trace.ops schema columns number tx_hash tx_pos

/-- Model of `process_vm_traces` (`vm_traces.rs` lines 60–72).  The schema lookup
is `schemas.get(&Datatype::BalanceDiffs).expect("missing schema")`; the
`expect` panic is modelled as `none`. -/
def process_vm_traces (response : Option Nat × Option Bytes × List BlockTrace)
    (columns : VmTraceColumns) (schemas : Schemas) : Option VmTraceColumns :=
  match schemas Datatype.BalanceDiffs with
  | none => none
  | some schema =>
    some ((response.2.2.enum).foldl
      (fun cols p =>
        match p.2.vm_trace with
        | some vm_trace => add_ops vm_trace schema cols response.1 response.2.1 p.1
        | none => cols)
      columns)

/-! Part: Code diff normalization (`datasets/code_diffs.rs`) -/

/-- The code-diffs column store (`CodeDiffs` struct). -/
structure CodeDiffsColumns where
  n_rows : Nat
  block_number : List (Option Nat)
  transaction_index : List (Option Nat)
  transaction_hash : List (Option Bytes)
  address : List Bytes
  from_value : List Bytes
  to_value : List Bytes
  chain_id : List Nat
deriving DecidableEq, Repr

/-- Model of `CodeDiffs::default()`: every column empty, counter zero. -/
def CodeDiffsColumns.default : CodeDiffsColumns :=
  ⟨0, [], [], [], [], [], [], []⟩

/-- Model of `process_code_diff` (`code_diffs.rs` lines 76–98): increment the row
counter, normalize the four-way diff into a `(from, to)` byte pair, and
store the row's fields. -/
def process_code_diff (addr : Bytes) (diff : Diff Bytes) (block_number : Option Nat)
    (transaction_hash : Option Bytes) (transaction_index : Nat)
    (columns : CodeDiffsColumns) (schema : Table) : CodeDiffsColumns :=
  let columns := { columns with n_rows := columns.n_rows + 1 }
  let ft : Bytes × Bytes :=
    match diff with
    | .Same => (h256_zero_bytes, h256_zero_bytes)
    | .Born v => (h256_zero_bytes, v)
    | .Died v => (v, h256_zero_bytes)
    | .Changed fromv tov => (fromv, tov)
  { columns with
    block_number := storeIf schema "block_number" columns.block_number block_number,
    transaction_index :=
      storeIf schema "transaction_index" columns.transaction_index (some transaction_index),
    transaction_hash := storeIf schema "transaction_hash" columns.transaction_hash transaction_hash,
    address := storeIf schema "address" columns.address addr,
    from_value := storeIf schema "from_value" columns.from_value ft.1,
    to_value := storeIf schema "to_value" columns.to_value ft.2 }

/-- Model of `process_code_diffs` (`code_diffs.rs` lines 59–74).  The `&mut`
column store plus `Result<()>` signature is modelled by returning the
(possibly updated) store together with the `Except` outcome: on the
missing-schema error the store is returned unchanged, exactly as in the
source, whose lookup precedes every mutation. -/
def process_code_diffs (response : Option Nat × Option Bytes × List BlockTrace)
    (columns : CodeDiffsColumns) (schemas : Schemas) :
    CodeDiffsColumns × Except String Unit :=
  match schemas Datatype.CodeDiffs with
  | none => (columns, .error "schema not provided")
  | some schema =>
    ((response.2.2.enum).foldl
      (fun cols p =>
        match p.2.state_diff with
        | some state_diffs =>
          state_diffs.foldl
            (fun c e => process_code_diff e.1 e.2.code response.1 response.2.1 p.1 c schema)
            cols
        | none => cols)
      columns, .ok ())

/-! Part: Fetcher and gas-usage resolver (`types/sources.rs`) -/

/-- The error type (`CollectError`), restricted to the variants the
embedded code constructs: the catch-all `CollectError(String)` and the
transport wrapper `ProviderError` (its payload abstracted to the
underlying message). -/
inductive CollectError where
  | collectError (msg : String)
  | providerError (msg : String)
deriving DecidableEq, Repr

/-- Model of `ethers::types::TransactionReceipt`, restricted to the fields the
embedded code reads: the optional gas used and the log list (log contents
abstracted to tokens). -/
structure TransactionReceipt where
  gas_used : Option Nat
  logs : List Nat
deriving DecidableEq, Repr

/-- Model of `ethers::types::Transaction`, restricted to the fields the embedded
code reads: the hash and the optional block number of a mined
transaction. -/
structure Transaction where
  hash : Nat
  block_number : Option Nat
deriving DecidableEq, Repr

/-- Model of `ethers::types::Block<Transaction>`, restricted to the fields the
embedded code reads. -/
structure Block where
  number : Option Nat
  transactions : List Transaction
deriving DecidableEq, Repr

/-- The node-facing RPC surface the embedded operations consume, one
oracle per provider call, with transport failures already mapped through
`Fetcher::map_err` (`ProviderError`): the response each call would
return. -/
structure FetcherEnv where
  block_receipts : Nat → Except CollectError (List TransactionReceipt)
  transaction_receipt : Nat → Except CollectError (Option TransactionReceipt)
  transaction_by_hash : Nat → Except CollectError (Option Transaction)

/-- One RPC round trip, recorded for the call log of the gas-usage
resolver. -/
inductive RpcCall where
  | blockReceipts (blockNumber : Nat)
  | txReceipt (txHash : Nat)
deriving DecidableEq, Repr

/-- The receipt loop of `get_txs_gas_used_per_block` (lines 330–335):
push `gas_used.as_u32()` per receipt, failing on the first receipt with
no gas-used value. -/
def collect_receipt_gas : List TransactionReceipt → Except CollectError (List Nat)
  | [] => .ok []
  | receipt :: rest =>
    match receipt.gas_used with
    | some value => (collect_receipt_gas rest).map (fun l => value % 2 ^ 32 :: l)
    | none => .error (.collectError "no gas_used for tx")

/-- Model of `get_txs_gas_used_per_block` (lines 319–337), paired with its RPC
call log: fail if the block has no number, else issue one batched
block-receipts call and collect every receipt's gas used. -/
def get_txs_gas_used_per_block (env : FetcherEnv) (block : Block) :
    Except CollectError (List Nat) × List RpcCall :=
  match block.number with
  | none => (.error (.collectError "no block number"), [])
  | some number =>
    match env.block_receipts number with
    | .error e => (.error e, [.blockReceipts number])
    | .ok receipts => (collect_receipt_gas receipts, [.blockReceipts number])

/-- The body of one spawned task of `get_txs_gas_used_per_tx`
(lines 348–353): fetch the receipt, propagate its transport error, fail
if the receipt is absent, else return its optional gas used. -/
def per_tx_task (env : FetcherEnv) (txHash : Nat) : Except CollectError (Option Nat) :=
  match env.transaction_receipt txHash with
  | .error e => .error e
  | .ok (some receipt) => .ok receipt.gas_used
  | .ok none => .error (.collectError "could not find tx receipt")

/-- The await loop of `get_txs_gas_used_per_tx` (lines 357–363): collect
the task results in spawn order, replacing any non-`Ok(Ok(Some _))`
outcome by the single catch-all error. -/
def collect_task_gas (env : FetcherEnv) : List Transaction → Except CollectError (List Nat)
  | [] => .ok []
  | tx :: rest =>
    match per_tx_task env tx.hash with
    | .ok (some value) => (collect_task_gas env rest).map (fun l => value % 2 ^ 32 :: l)
    | _ => .error (.collectError "gas_used not available from node")

/-- Model of `get_txs_gas_used_per_tx` (lines 339–366), paired with its RPC call
log: one receipt task is spawned per transaction of the block (so one
RPC call is logged per transaction, in block order), then the results are
awaited in that same spawn order. -/
def get_txs_gas_used_per_tx (env : FetcherEnv) (block : Block) :
    Except CollectError (List Nat) × List RpcCall :=
  (collect_task_gas env block.transactions,
   block.transactions.map (fun tx => RpcCall.txReceipt tx.hash))

/-- Model of `Source::get_txs_gas_used` (lines 311–316), paired with the combined
RPC call log: run the batched per-block path; adopt its value when it
succeeds, otherwise discard it and run the per-transaction path. -/
def get_txs_gas_used (env : FetcherEnv) (block : Block) :
    Except CollectError (List Nat) × List RpcCall :=
  let perBlock := get_txs_gas_used_per_block env block
  match perBlock.1 with
  | .ok value => (.ok value, perBlock.2)
  | .error _ =>
    let perTx := get_txs_gas_used_per_tx env block
    (perTx.1, perBlock.2 ++ perTx.2)

/-- Model of `Fetcher::get_transaction_logs` (lines 281–287): fetch the receipt,
fail when it is absent, else return its logs. -/
def get_transaction_logs (env : FetcherEnv) (transaction_hash : Nat) :
    Except CollectError (List Nat) :=
  match env.transaction_receipt transaction_hash with
  | .error e => .error e
  | .ok none => .error (.collectError "transaction receipt not found")
  | .ok (some receipt) => .ok receipt.logs

/-- Model of `Fetcher::get_transaction_block_number` (lines 271–278): fetch the
transaction, fail when it is absent or unmined, else return its block
number as `u32`. -/
def get_transaction_block_number (env : FetcherEnv) (transaction_hash : Nat) :
    Except CollectError Nat :=
  match env.transaction_by_hash transaction_hash with
  | .error e => .error e
  | .ok none => .error (.collectError "could not get block")
  | .ok (some tx) =>
    match tx.block_number with
    | none => .error (.collectError "could not get block number")
    | some n => .ok (n % 2 ^ 32)

/-! Part: Gate acquisition traces (`Fetcher::permit_request` and callers)

The suspension behaviour of the semaphore and rate limiter is not
modelled; what is modelled is the sequence of gate and RPC events each
operation performs, read off the operation bodies. -/

/-- Which provider call an operation's single RPC round trip issues. -/
inductive ProviderCall where
  | getLogs
  | traceReplayBlockTransactions
  | traceReplayTransaction
  | getTransaction
  | getTransactionReceipt
  | getBlock
  | getBlockReceipts
  | getBlockNumber
deriving DecidableEq, Repr

/-- Observable gate / RPC events of one Fetcher operation. -/
inductive FetchEvent where
  | semAcquire
  | rateWait
  | rpc (c : ProviderCall)
  | semRelease
deriving DecidableEq, Repr

/-- Fetcher gate configuration: the optional concurrency semaphore (with
its slot count) and whether a rate limiter is configured. -/
structure FetcherCfg where
  semaphore : Option Nat
  rate_limiter : Bool
deriving DecidableEq, Repr

/-- Model of `Fetcher::permit_request` (lines 289–300): acquire a semaphore
permit when a semaphore is configured, then wait on the rate limiter when
one is configured. -/
def permit_request_events (cfg : FetcherCfg) : List FetchEvent :=
  (match cfg.semaphore with
   | some _ => [.semAcquire]
   | none => []) ++
  (if cfg.rate_limiter then [.rateWait] else [])

/-- The scope-exit release of the `_permit` binding: the semaphore permit
is dropped when the operation returns. -/
def permit_release_events (cfg : FetcherCfg) : List FetchEvent :=
  match cfg.semaphore with
  | some _ => [.semRelease]
  | none => []

/-- Model of `Fetcher::get_logs` (lines 43–46): permit, one RPC, release. -/
def get_logs_events (cfg : FetcherCfg) : List FetchEvent :=
  permit_request_events cfg ++ [.rpc .getLogs] ++ permit_release_events cfg

/-- Model of `Fetcher::get_transaction_receipt` (lines 128–134): permit, one RPC,
release. -/
def get_transaction_receipt_events (cfg : FetcherCfg) : List FetchEvent :=
  permit_request_events cfg ++ [.rpc .getTransactionReceipt] ++ permit_release_events cfg

/-- Model of `Fetcher::get_block_receipts` (lines 155–158): permit, one RPC,
release. -/
def get_block_receipts_events (cfg : FetcherCfg) : List FetchEvent :=
  permit_request_events cfg ++ [.rpc .getBlockReceipts] ++ permit_release_events cfg

/-- Model of `Fetcher::get_block_number` (lines 264–266): the body is
`Self::map_err(self.provider.get_block_number().await)` with no
`permit_request` call, so the only event is the RPC itself. -/
def get_block_number_events (_cfg : FetcherCfg) : List FetchEvent :=
  [.rpc .getBlockNumber]

/-! Part: Node count and pre-order traversal of a trace tree -/

/-- Total node count of a list of trace operations: each operation plus
all nodes of its sub-trace. -/
def countOps : List VMOperation → Nat
  | [] => 0
  | .mk _ _ _ (some sub) _ :: rest => 1 + countOps sub.2 + countOps rest
  | .mk _ _ _ none _ :: rest => 1 + countOps rest
termination_by ops => sizeOf ops
decreasing_by
  all_goals simp_wf
  · cases sub
    simp_arith

/-- Total node count of a trace tree (root operations plus all
descendants). -/
def countTrace (t : VMTrace) : Nat := countOps t.ops

/-- Depth-first pre-order listing of the nodes of a list of trace
operations: each node, then the nodes of its sub-trace in order, then its
later siblings. -/
def preorderOps : List VMOperation → List VMOperation
  | [] => []
  | op@(.mk _ _ _ (some sub) _) :: rest =>
    op :: (preorderOps sub.2 ++ preorderOps rest)
  | op@(.mk _ _ _ none _) :: rest => op :: preorderOps rest
termination_by ops => sizeOf ops
decreasing_by
  all_goals simp_wf
  · cases sub
    simp_arith

/-- Depth-first pre-order listing of the nodes of a trace tree. -/
def preorderTrace (t : VMTrace) : List VMOperation := preorderOps t.ops

/-! Part: Characterization of one emitted row -/

/-- Mnemonic string of an executed instruction: decoded opcode name, or
the verbatim unrecognized string. -/
def ExecutedInstruction.mnemonic : ExecutedInstruction → String
  | .known o => o
  | .unknown o => o

/-- Instruction of a trace node. -/
def VMOperation.opOf : VMOperation → ExecutedInstruction
  | .mk _ _ _ _ o => o

/-- The four-way diff rule as the spec states it, for the refinement
comparison with `process_code_diff`.  Modelled from the spec: "unchanged →
(zero-value, zero-value); created → (zero-value, new-value); destroyed →
(old-value, zero-value); changed → (old-value, new-value)". -/
def diff_from_to_spec : Diff Bytes → Bytes × Bytes
  | .Same => (h256_zero_bytes, h256_zero_bytes)
  | .Born v => (h256_zero_bytes, v)
  | .Died v => (v, h256_zero_bytes)
  | .Changed fromv tov => (fromv, tov)

/-- The per-transaction gas value the fallback path would adopt for one
transaction: `some` of the truncated gas-used when the receipt fetch
succeeds, the receipt exists and carries a gas-used value, `none` in
every failing case. -/
def tx_gas_of (env : FetcherEnv) (tx : Transaction) : Option Nat :=
  match per_tx_task env tx.hash with
  | .ok (some value) => some (value % 2 ^ 32)
  | _ => none

/-! Part: Concrete fixtures used by witnesses and counterexamples -/

/-- A schema wanting every column of the VM-trace dataset. -/
def fxFullTable : Table :=
  ⟨["block_number", "transaction_hash", "transaction_position", "pc", "cost", "used",
    "push", "mem_off", "mem_data", "storage_key", "storage_val", "op"]⟩

/-- A schema wanting every column of the code-diffs dataset. -/
def fxDiffTable : Table :=
  ⟨["block_number", "transaction_index", "transaction_hash", "address",
    "from_value", "to_value"]⟩

/-- A reverted child node: no execution outcome. -/
def fxOpAdd : VMOperation := .mk 1 2 none none (.known "ADD")

/-- A root CALL node with an execution outcome and one child. -/
def fxOpCall : VMOperation :=
  .mk 0 3 (some ⟨10, [1], none, none⟩) (some ([], [fxOpAdd])) (.known "CALL")

/-- Root-with-one-child example tree. -/
def fxTrace : VMTrace := ⟨[], [fxOpCall]⟩

/-- A node whose execution outcome carries BOTH a memory write and a
storage write. -/
def fxOpBoth : VMOperation :=
  .mk 4 5 (some ⟨9, [], some ⟨3, [7]⟩, some ⟨1, 2⟩⟩) none (.known "SSTORE")

/-- Single-node tree around `fxOpBoth`. -/
def fxTraceBoth : VMTrace := ⟨[], [fxOpBoth]⟩

/-- A minimal single-node tree. -/
def fxTraceSimple : VMTrace := ⟨[], [.mk 5 2 none none (.known "ADD")]⟩

/-- A block trace carrying only a VM trace. -/
def fxBlockTraceVm : BlockTrace := ⟨some fxTraceSimple, none⟩

/-- A block trace carrying only a one-address state diff whose code
changed from `[1]` to `[2]`. -/
def fxBlockTraceDiff : BlockTrace :=
  ⟨none, some [(List.replicate 20 10, ⟨.Same, .Same, .Changed [1] [2], []⟩)]⟩

/-- Schemas registering a full table for VM traces and an empty table
for balance diffs (and nothing else). -/
def fxSchemasVmFull : Schemas := fun d =>
  match d with
  | .VmTraces => some fxFullTable
  | .BalanceDiffs => some ⟨[]⟩
  | _ => none

/-- Schemas registering an empty table for VM traces and a full table
for balance diffs (and nothing else). -/
def fxSchemasBalFull : Schemas := fun d =>
  match d with
  | .VmTraces => some ⟨[]⟩
  | .BalanceDiffs => some fxFullTable
  | _ => none

/-- Schemas with entries for VM traces and code diffs but none for
balance diffs. -/
def fxSchemasNoBal : Schemas := fun d =>
  match d with
  | .VmTraces => some fxFullTable
  | .CodeDiffs => some fxDiffTable
  | _ => none

/-- Schemas with no entry for code diffs. -/
def fxSchemasNoCode : Schemas := fun d =>
  match d with
  | .BalanceDiffs => some fxFullTable
  | .VmTraces => some fxFullTable
  | _ => none

/-- An environment in which every call succeeds: one receipt with
gas-used 7, transactions mined at block 5. -/
def fxEnvOk : FetcherEnv :=
  ⟨fun _ => .ok [⟨some 7, [3]⟩],
   fun _ => .ok (some ⟨some 7, [3]⟩),
   fun _ => .ok (some ⟨100, some 5⟩)⟩

/-- An environment in which the batched block-receipts call fails with a
transport error while per-transaction receipt fetches succeed. -/
def fxEnvBatchFails : FetcherEnv :=
  ⟨fun _ => .error (.providerError "boom"),
   fun _ => .ok (some ⟨some 7, [3]⟩),
   fun _ => .ok (some ⟨100, some 5⟩)⟩

/-- An environment in which receipts and transactions are absent. -/
def fxEnvAbsent : FetcherEnv :=
  ⟨fun _ => .ok [],
   fun _ => .ok none,
   fun _ => .ok none⟩

/-- A one-transaction block numbered 5. -/
def fxBlock : Block := ⟨some 5, [⟨100, some 5⟩]⟩

/-- Closed form of one row emission: `emitOpRow` appends, to exactly the
wanted columns, the program counter, the gas cost, the correlation
fields, and the execution-outcome fields — each of the latter `some`
exactly when the underlying datum exists — and increments the row counter
by one. -/
theorem emitOpRow_eq (schema : Table) (columns : VmTraceColumns) (number : Option Nat)
    (tx_hash : Option Bytes) (tx_pos : Nat) (opcode : VMOperation) :
    emitOpRow schema columns number tx_hash tx_pos opcode =
      { block_number := storeIf schema "block_number" columns.block_number number
        transaction_hash := storeIf schema "transaction_hash" columns.transaction_hash tx_hash
        transaction_position :=
          storeIf schema "transaction_position" columns.transaction_position (tx_pos % 2 ^ 32)
        pc := storeIf schema "pc" columns.pc opcode.pcOf
        cost := storeIf schema "cost" columns.cost opcode.costOf
        used := storeIf schema "used" columns.used
          (opcode.exOf.map VMExecutedOperation.used)
        push := storeIf schema "push" columns.push
          (opcode.exOf.map (fun e => list_u256_to_vec_u8 e.push))
        mem_off := storeIf schema "mem_off" columns.mem_off
          ((opcode.exOf.bind VMExecutedOperation.mem).map (fun m => m.off % 2 ^ 32))
        mem_data := storeIf schema "mem_data" columns.mem_data
          ((opcode.exOf.bind VMExecutedOperation.mem).map MemoryDiff.data)
        storage_key := storeIf schema "storage_key" columns.storage_key
          ((opcode.exOf.bind VMExecutedOperation.store).map (fun s => u256_to_vec_u8 s.key))
        storage_val := storeIf schema "storage_val" columns.storage_val
          ((opcode.exOf.bind VMExecutedOperation.store).map (fun s => u256_to_vec_u8 s.val))
        op := storeIf schema "op" columns.op opcode.opOf.mnemonic
        n_rows := columns.n_rows + 1 } := by
  obtain ⟨pcv, costv, exv, subv, opv⟩ := opcode
  cases exv with
  | none =>
    cases opv <;>
      simp only [emitOpRow, VMOperation.pcOf, VMOperation.costOf, VMOperation.exOf,
        VMOperation.opOf, ExecutedInstruction.mnemonic, Option.map_none, Option.bind,
        Option.none_bind] <;>
      split <;>
      simp_all [storeIf, Table.has_column]
  | some ex =>
    obtain ⟨usedv, pushv, memv, storev⟩ := ex
    cases memv <;> cases storev <;> cases opv <;>
      simp only [emitOpRow, VMOperation.pcOf, VMOperation.costOf, VMOperation.exOf,
        VMOperation.opOf, ExecutedInstruction.mnemonic, Option.map_some, Option.some_bind,
        Option.map_none, Option.none_bind] <;>
      split <;>
      simp_all [storeIf, Table.has_column]

/-- Main flattening lemma: `add_ops_go` adds exactly `countOps ops` to the
row counter, and appends to the `pc` and `cost` columns (when wanted) the
projections of the depth-first pre-order node listing. -/
theorem add_ops_go_spec (ops : List VMOperation) (schema : Table) (columns : VmTraceColumns)
    (number : Option Nat) (tx_hash : Option Bytes) (tx_pos : Nat) :
    (add_ops_go ops schema columns number tx_hash tx_pos).n_rows
        = columns.n_rows + countOps ops
    ∧ (add_ops_go ops schema columns number tx_hash tx_pos).pc
        = columns.pc ++
          (if schema.has_column "pc" then (preorderOps ops).map VMOperation.pcOf else [])
    ∧ (add_ops_go ops schema columns number tx_hash tx_pos).cost
        = columns.cost ++
          (if schema.has_column "cost" then (preorderOps ops).map VMOperation.costOf else []) := by
  induction ops, schema, columns, number, tx_hash, tx_pos using add_ops_go.induct with
  | case1 schema columns number tx_hash tx_pos =>
    simp [add_ops_go, countOps, preorderOps]
  | case2 schema columns number tx_hash tx_pos pcv costv exv sub opv rest ih1 ih2 =>
    obtain ⟨h1n, h1p, h1c⟩ := ih1
    obtain ⟨h2n, h2p, h2c⟩ := ih2
    rw [add_ops_go]
    refine ⟨?_, ?_, ?_⟩
    · rw [h2n, h1n, emitOpRow_eq]
      simp [countOps]
      omega
    · rw [h2p, h1p, emitOpRow_eq]
      simp only [preorderOps, storeIf]
      split <;> simp [VMOperation.pcOf]
    · rw [h2c, h1c, emitOpRow_eq]
      simp only [preorderOps, storeIf]
      split <;> simp [VMOperation.costOf]
  | case3 schema columns number tx_hash tx_pos pcv costv exv opv rest ih =>
    obtain ⟨hn, hp, hc⟩ := ih
    rw [add_ops_go]
    refine ⟨?_, ?_, ?_⟩
    · rw [hn, emitOpRow_eq]
      simp [countOps]
      omega
    · rw [hp, emitOpRow_eq]
      simp only [preorderOps, storeIf]
      split <;> simp [VMOperation.pcOf]
    · rw [hc, emitOpRow_eq]
      simp only [preorderOps, storeIf]
      split <;> simp [VMOperation.costOf]

/-! Part: Claims -/

/-- Claim C1. For every trace tree passed to the VM-trace flattener
(`add_ops`), flattening adds exactly one row per node: for a tree with
`countTrace t` total nodes (root operations and all descendants) the row
counter grows by exactly that count (so it equals the node count on a
fresh store), and the rows appear in depth-first pre-order — a node's
row, then its children's rows in their given order, before the node's
next sibling (`preorderTrace`) — witnessed on the wanted `pc` and `cost`
columns. -/
theorem vm_trace_flatten_row_count_preorder (t : VMTrace) (schema : Table)
    (columns : VmTraceColumns) (number : Option Nat) (tx_hash : Option Bytes) (tx_pos : Nat) :
    (add_ops t schema columns number tx_hash tx_pos).n_rows = columns.n_rows + countTrace t
    ∧ (schema.has_column "pc" = true →
        (add_ops t schema columns number tx_hash tx_pos).pc
          = columns.pc ++ (preorderTrace t).map VMOperation.pcOf)
    ∧ (schema.has_column "cost" = true →
        (add_ops t schema columns number tx_hash tx_pos).cost
          = columns.cost ++ (preorderTrace t).map VMOperation.costOf) := by
  obtain ⟨hn, hp, hc⟩ := add_ops_go_spec t.ops schema columns number tx_hash tx_pos
  refine ⟨?_, fun h => ?_, fun h => ?_⟩
  · simpa [add_ops, countTrace] using hn
  · simp only [add_ops, preorderTrace]
    rw [hp]
    simp [h]
  · simp only [add_ops, preorderTrace]
    rw [hc]
    simp [h]

/-- Witness for C1 at the root-with-one-child tree `fxTrace` on a fresh
store with the full schema. -/
theorem vm_trace_flatten_row_count_preorder_witness :
    fxFullTable.has_column "pc" = true
    ∧ (add_ops fxTrace fxFullTable VmTraceColumns.default (some 1) none 0).n_rows
        = VmTraceColumns.default.n_rows + countTrace fxTrace
    ∧ (add_ops fxTrace fxFullTable VmTraceColumns.default (some 1) none 0).pc
        = VmTraceColumns.default.pc ++ (preorderTrace fxTrace).map VMOperation.pcOf :=
  ⟨by decide,
   (vm_trace_flatten_row_count_preorder fxTrace fxFullTable VmTraceColumns.default
     (some 1) none 0).1,
   (vm_trace_flatten_row_count_preorder fxTrace fxFullTable VmTraceColumns.default
     (some 1) none 0).2.1 (by decide)⟩

/-- Claim C2, counterexample. The claim says that when a node records an
execution outcome, exactly one of the memory-write pair and the
storage-write pair is populated and that both are never simultaneously
present.  On the single-node tree `fxTraceBoth`, whose outcome carries
both a memory write and a storage write, the flattener populates BOTH
pairs in the same (single) row, refuting the claim at this input. -/
theorem vm_trace_row_write_pair_counterexample :
    (add_ops fxTraceBoth fxFullTable VmTraceColumns.default (some 1) none 0).n_rows = 1
    ∧ (add_ops fxTraceBoth fxFullTable VmTraceColumns.default (some 1) none 0).mem_off
        = [some 3]
    ∧ (add_ops fxTraceBoth fxFullTable VmTraceColumns.default (some 1) none 0).mem_data
        = [some [7]]
    ∧ (add_ops fxTraceBoth fxFullTable VmTraceColumns.default (some 1) none 0).storage_key
        = [some (u256_to_vec_u8 1)]
    ∧ (add_ops fxTraceBoth fxFullTable VmTraceColumns.default (some 1) none 0).storage_val
        = [some (u256_to_vec_u8 2)] := by
  refine ⟨?_, ?_, ?_, ?_, ?_⟩ <;>
    simp [add_ops, add_ops_go, emitOpRow, storeIf, Table.has_column, fxTraceBoth, fxOpBoth,
      fxFullTable, VmTraceColumns.default]

/-- Claim C2, amended. For every node row emitted by the flattener
(`emitOpRow`, through which `add_ops` emits each row): program counter
and gas cost are always populated; if the node records an execution
outcome, gas used and pushed value are populated, the memory-write pair
is populated exactly when the outcome carries a memory write and is
recorded as absent otherwise, and — independently — the storage-write
pair exactly when it carries a storage write (so neither or both pairs
may be present); if the node has no execution outcome, all of gas-used,
push, memory and storage fields are recorded as null while pc and cost
are still populated. -/
theorem vm_trace_row_fields_amended (schema : Table) (columns : VmTraceColumns)
    (number : Option Nat) (tx_hash : Option Bytes) (tx_pos : Nat) (opcode : VMOperation) :
    (emitOpRow schema columns number tx_hash tx_pos opcode).pc
        = storeIf schema "pc" columns.pc opcode.pcOf
    ∧ (emitOpRow schema columns number tx_hash tx_pos opcode).cost
        = storeIf schema "cost" columns.cost opcode.costOf
    ∧ (∀ ex, opcode.exOf = some ex →
        (emitOpRow schema columns number tx_hash tx_pos opcode).used
            = storeIf schema "used" columns.used (some ex.used)
        ∧ (emitOpRow schema columns number tx_hash tx_pos opcode).push
            = storeIf schema "push" columns.push (some (list_u256_to_vec_u8 ex.push))
        ∧ (emitOpRow schema columns number tx_hash tx_pos opcode).mem_off
            = storeIf schema "mem_off" columns.mem_off (ex.mem.map (fun m => m.off % 2 ^ 32))
        ∧ (emitOpRow schema columns number tx_hash tx_pos opcode).mem_data
            = storeIf schema "mem_data" columns.mem_data (ex.mem.map MemoryDiff.data)
        ∧ (emitOpRow schema columns number tx_hash tx_pos opcode).storage_key
            = storeIf schema "storage_key" columns.storage_key
                (ex.store.map (fun s => u256_to_vec_u8 s.key))
        ∧ (emitOpRow schema columns number tx_hash tx_pos opcode).storage_val
            = storeIf schema "storage_val" columns.storage_val
                (ex.store.map (fun s => u256_to_vec_u8 s.val)))
    ∧ (opcode.exOf = none →
        (emitOpRow schema columns number tx_hash tx_pos opcode).used
            = storeIf schema "used" columns.used none
        ∧ (emitOpRow schema columns number tx_hash tx_pos opcode).push
            = storeIf schema "push" columns.push none
        ∧ (emitOpRow schema columns number tx_hash tx_pos opcode).mem_off
            = storeIf schema "mem_off" columns.mem_off none
        ∧ (emitOpRow schema columns number tx_hash tx_pos opcode).mem_data
            = storeIf schema "mem_data" columns.mem_data none
        ∧ (emitOpRow schema columns number tx_hash tx_pos opcode).storage_key
            = storeIf schema "storage_key" columns.storage_key none
        ∧ (emitOpRow schema columns number tx_hash tx_pos opcode).storage_val
            = storeIf schema "storage_val" columns.storage_val none) := by
  rw [emitOpRow_eq]
  refine ⟨rfl, rfl, fun ex hex => ?_, fun hex => ?_⟩ <;>
    simp [hex]

/-- Witness for C2-amended at the both-writes node `fxOpBoth` (execution
outcome present) on a fresh store with the full schema. -/
theorem vm_trace_row_fields_amended_witness :
    fxOpBoth.exOf = some ⟨9, [], some ⟨3, [7]⟩, some ⟨1, 2⟩⟩
    ∧ (emitOpRow fxFullTable VmTraceColumns.default (some 1) none 0 fxOpBoth).used
        = storeIf fxFullTable "used" VmTraceColumns.default.used (some 9) :=
  ⟨rfl,
   ((vm_trace_row_fields_amended fxFullTable VmTraceColumns.default (some 1) none 0
       fxOpBoth).2.2.1 ⟨9, [], some ⟨3, [7]⟩, some ⟨1, 2⟩⟩ rfl).1⟩

/-- Claim C3. Every diff entry handed to the code-diff normalizer
`process_code_diff` yields exactly one `(from, to)` byte pair (and
exactly one row — the counter grows by one), by the spec's four-way rule
`diff_from_to_spec`; in particular the `unchanged` variant maps to the
pair of two 32-byte zero values, never pairing a zero value with a
non-zero one. -/
theorem code_diff_normalization (addr : Bytes) (diff : Diff Bytes) (bn : Option Nat)
    (txh : Option Bytes) (idx : Nat) (columns : CodeDiffsColumns) (schema : Table) :
    (process_code_diff addr diff bn txh idx columns schema).n_rows = columns.n_rows + 1
    ∧ (process_code_diff addr diff bn txh idx columns schema).from_value
        = storeIf schema "from_value" columns.from_value (diff_from_to_spec diff).1
    ∧ (process_code_diff addr diff bn txh idx columns schema).to_value
        = storeIf schema "to_value" columns.to_value (diff_from_to_spec diff).2
    ∧ diff_from_to_spec Diff.Same = (h256_zero_bytes, h256_zero_bytes) := by
  cases diff <;> simp [process_code_diff, diff_from_to_spec]

/-- The batched path's call log never contains a per-transaction receipt
call. -/
theorem per_block_log_no_txreceipt (env : FetcherEnv) (block : Block) (h : Nat) :
    RpcCall.txReceipt h ∉ (get_txs_gas_used_per_block env block).2 := by
  unfold get_txs_gas_used_per_block
  cases block.number with
  | none => simp
  | some n => cases hb : env.block_receipts n <;> simp [hb]

/-- When every transaction of the list has an adoptable gas value, the
await loop returns exactly those values, in list order. -/
theorem collect_task_gas_ok (env : FetcherEnv) (txs : List Transaction)
    (h : ∀ tx ∈ txs, tx_gas_of env tx ≠ none) :
    collect_task_gas env txs = .ok (txs.map (fun tx => (tx_gas_of env tx).getD 0)) := by
  induction txs with
  | nil => simp [collect_task_gas]
  | cons tx rest ih =>
    have htx := h tx (List.mem_cons_self tx rest)
    have hrest : ∀ t ∈ rest, tx_gas_of env t ≠ none :=
      fun t ht => h t (List.mem_cons_of_mem _ ht)
    cases hp : per_tx_task env tx.hash with
    | ok o =>
      cases o with
      | some v => simp [collect_task_gas, hp, ih hrest, tx_gas_of, Except.map]
      | none => exact absurd (by simp [tx_gas_of, hp]) htx
    | error e => exact absurd (by simp [tx_gas_of, hp]) htx

/-- When any transaction of the list lacks an adoptable gas value, the
await loop fails as a whole with the single catch-all error. -/
theorem collect_task_gas_err (env : FetcherEnv) (txs : List Transaction)
    (h : ∃ tx ∈ txs, tx_gas_of env tx = none) :
    collect_task_gas env txs = .error (.collectError "gas_used not available from node") := by
  induction txs with
  | nil => simp at h
  | cons tx rest ih =>
    obtain ⟨t, ht, htn⟩ := h
    rcases List.mem_cons.mp ht with rfl | hmem
    · cases hp : per_tx_task env t.hash with
      | ok o =>
        cases o with
        | some v => simp [tx_gas_of, hp] at htn
        | none => simp [collect_task_gas, hp]
      | error e => simp [collect_task_gas, hp]
    · cases hp : per_tx_task env tx.hash with
      | ok o =>
        cases o with
        | some v => simp [collect_task_gas, hp, ih ⟨t, hmem, htn⟩, Except.map]
        | none => simp [collect_task_gas, hp]
      | error e => simp [collect_task_gas, hp]

/-- The await loop is a function of the receipt oracle alone. -/
theorem collect_task_gas_env_indep (env env2 : FetcherEnv) (txs : List Transaction)
    (h : ∀ hh, env2.transaction_receipt hh = env.transaction_receipt hh) :
    collect_task_gas env2 txs = collect_task_gas env txs := by
  induction txs with
  | nil => rfl
  | cons tx rest ih =>
    have hpt : per_tx_task env2 tx.hash = per_tx_task env tx.hash := by
      simp [per_tx_task, h]
    rw [collect_task_gas, collect_task_gas, hpt, ih]

/-- Claim C4. The gas-usage resolver first runs the batched block-receipts
path; when that path returns complete data its value is adopted and the
combined call log contains no per-transaction receipt call (the fallback
is never invoked); when the batched path fails — transport failure, or a
receipt lacking a gas-used value — its result is discarded entirely and
the resolver's result is exactly the per-transaction path's result, with
the fallback's calls appended to the log. -/
theorem gas_used_two_path_fallback (env : FetcherEnv) (block : Block) :
    (∀ v, (get_txs_gas_used_per_block env block).1 = .ok v →
        get_txs_gas_used env block = (.ok v, (get_txs_gas_used_per_block env block).2)
        ∧ ∀ h, RpcCall.txReceipt h ∉ (get_txs_gas_used env block).2)
    ∧ (∀ e, (get_txs_gas_used_per_block env block).1 = .error e →
        (get_txs_gas_used env block).1 = (get_txs_gas_used_per_tx env block).1
        ∧ (get_txs_gas_used env block).2
            = (get_txs_gas_used_per_block env block).2
              ++ (get_txs_gas_used_per_tx env block).2) := by
  constructor
  · intro v hv
    constructor
    · simp [get_txs_gas_used, hv]
    · intro h
      simp only [get_txs_gas_used, hv]
      exact per_block_log_no_txreceipt env block h
  · intro e he
    constructor <;> simp [get_txs_gas_used, he]

/-- Witness for C4: a complete batch is adopted (no fallback call), and a
failed batch falls through to the per-transaction path. -/
theorem gas_used_two_path_fallback_witness :
    (get_txs_gas_used_per_block fxEnvOk fxBlock).1 = .ok [7]
    ∧ get_txs_gas_used fxEnvOk fxBlock
        = (.ok [7], (get_txs_gas_used_per_block fxEnvOk fxBlock).2)
    ∧ (get_txs_gas_used_per_block fxEnvBatchFails fxBlock).1 = .error (.providerError "boom")
    ∧ (get_txs_gas_used fxEnvBatchFails fxBlock).1
        = (get_txs_gas_used_per_tx fxEnvBatchFails fxBlock).1 :=
  ⟨rfl,
   ((gas_used_two_path_fallback fxEnvOk fxBlock).1 [7] rfl).1,
   rfl,
   ((gas_used_two_path_fallback fxEnvBatchFails fxBlock).2 (.providerError "boom") rfl).1⟩

/-- Claim C5. The per-transaction fallback fails as a whole — returning the
single catch-all error, never a partial list — as soon as any
transaction's receipt is missing, fails to fetch, or lacks a gas-used
value; when it succeeds its output has exactly one entry per transaction
of the block, in block transaction order; and its result is a function of
the receipt oracle alone, hence independent of concurrent completion
order. -/
theorem gas_used_per_tx_total_ordered (env : FetcherEnv) (block : Block) :
    ((∃ tx ∈ block.transactions, tx_gas_of env tx = none) →
        (get_txs_gas_used_per_tx env block).1
          = .error (.collectError "gas_used not available from node"))
    ∧ ((∀ tx ∈ block.transactions, tx_gas_of env tx ≠ none) →
        (get_txs_gas_used_per_tx env block).1
          = .ok (block.transactions.map (fun tx => (tx_gas_of env tx).getD 0)))
    ∧ (∀ l, (get_txs_gas_used_per_tx env block).1 = .ok l →
        l.length = block.transactions.length)
    ∧ (∀ env2 : FetcherEnv,
        (∀ hh, env2.transaction_receipt hh = env.transaction_receipt hh) →
        (get_txs_gas_used_per_tx env2 block).1 = (get_txs_gas_used_per_tx env block).1) := by
  refine ⟨?_, ?_, ?_, ?_⟩
  · intro h
    exact collect_task_gas_err env block.transactions h
  · intro h
    exact collect_task_gas_ok env block.transactions h
  · intro l hl
    by_cases hall : ∀ tx ∈ block.transactions, tx_gas_of env tx ≠ none
    · rw [show (get_txs_gas_used_per_tx env block).1 = collect_task_gas env block.transactions
          from rfl, collect_task_gas_ok env block.transactions hall] at hl
      cases hl
      simp
    · push_neg at hall
      obtain ⟨t, ht, htn⟩ := hall
      rw [show (get_txs_gas_used_per_tx env block).1 = collect_task_gas env block.transactions
          from rfl, collect_task_gas_err env block.transactions ⟨t, ht, htn⟩] at hl
      cases hl
  · intro env2 h2
    exact collect_task_gas_env_indep env env2 block.transactions h2

/-- Witness for C5: the all-successful environment yields the full
in-order list, and the receipts-absent environment fails as a whole. -/
theorem gas_used_per_tx_total_ordered_witness :
    (get_txs_gas_used_per_tx fxEnvOk fxBlock).1
        = .ok (fxBlock.transactions.map (fun tx => (tx_gas_of fxEnvOk tx).getD 0))
    ∧ (get_txs_gas_used_per_tx fxEnvAbsent fxBlock).1
        = .error (.collectError "gas_used not available from node") :=
  ⟨(gas_used_per_tx_total_ordered fxEnvOk fxBlock).2.1
     (by intro tx _; simp [tx_gas_of, per_tx_task, fxEnvOk]),
   (gas_used_per_tx_total_ordered fxEnvAbsent fxBlock).1
     ⟨⟨100, some 5⟩, by simp [fxBlock], by simp [tx_gas_of, per_tx_task, fxEnvAbsent]⟩⟩

/-- Claim C6, code bug. The claim — every public Fetcher operation
acquires one gate permit before its RPC round trip, in particular
`get_block_number` — is contradicted by the code: with a semaphore and a
rate limiter configured, `get_block_number`'s event trace is the bare RPC
with no gate acquisition at all, while the other operations (here
`get_logs` and `get_block_receipts`) do acquire and release the gate
around their round trip. -/
theorem get_block_number_skips_gate :
    get_block_number_events ⟨some 2, true⟩ = [.rpc .getBlockNumber]
    ∧ FetchEvent.semAcquire ∉ get_block_number_events ⟨some 2, true⟩
    ∧ FetchEvent.rateWait ∉ get_block_number_events ⟨some 2, true⟩
    ∧ get_logs_events ⟨some 2, true⟩
        = [.semAcquire, .rateWait, .rpc .getLogs, .semRelease]
    ∧ get_block_receipts_events ⟨some 2, true⟩
        = [.semAcquire, .rateWait, .rpc .getBlockReceipts, .semRelease] := by
  refine ⟨rfl, by decide, by decide, rfl, rfl⟩

/-- Claim C7, code bug. The claim — each transform gates its column writes
by the schema registered for its own dataset kind, in particular VM
traces by the `VmTraces` entry — is contradicted by the code, which looks
up `Datatype::BalanceDiffs`: with the `VmTraces` entry wanting every
column and the `BalanceDiffs` entry wanting none, no column is written
(though a row is counted); with the entries swapped, the columns are
written although the `VmTraces` entry wants none.  The code-diffs half of
the claim does hold: `process_code_diffs` consults the `CodeDiffs`
entry. -/
theorem vm_traces_wrong_schema_key :
    (process_vm_traces (some 1, none, [fxBlockTraceVm]) VmTraceColumns.default
        fxSchemasVmFull).map VmTraceColumns.pc = some []
    ∧ (process_vm_traces (some 1, none, [fxBlockTraceVm]) VmTraceColumns.default
        fxSchemasVmFull).map VmTraceColumns.n_rows = some 1
    ∧ (process_vm_traces (some 1, none, [fxBlockTraceVm]) VmTraceColumns.default
        fxSchemasBalFull).map VmTraceColumns.pc = some [5]
    ∧ (process_code_diffs (some 1, none, [fxBlockTraceDiff]) CodeDiffsColumns.default
        fxSchemasNoBal).1.from_value = [[1]]
    ∧ (process_code_diffs (some 1, none, [fxBlockTraceDiff]) CodeDiffsColumns.default
        fxSchemasNoBal).2 = .ok () := by
  refine ⟨?_, ?_, ?_, ?_, ?_⟩ <;>
    simp [process_vm_traces, process_code_diffs, process_code_diff, fxSchemasVmFull,
      fxSchemasBalFull, fxSchemasNoBal, fxBlockTraceVm, fxBlockTraceDiff, fxTraceSimple,
      fxFullTable, fxDiffTable, add_ops, add_ops_go, emitOpRow, storeIf, Table.has_column,
      VmTraceColumns.default, CodeDiffsColumns.default]

/-- Claim C8. `get_transaction_logs` fetches the transaction's receipt and
fails with the not-found error when the receipt is absent, otherwise
returning the receipt's logs; `get_transaction_block_number` fetches the
transaction and fails with the not-found error when the transaction is
absent or unmined, otherwise returning its block number. -/
theorem transaction_lookup_not_found (env : FetcherEnv) (h : Nat) :
    (env.transaction_receipt h = .ok none →
        get_transaction_logs env h = .error (.collectError "transaction receipt not found"))
    ∧ (∀ r, env.transaction_receipt h = .ok (some r) →
        get_transaction_logs env h = .ok r.logs)
    ∧ (env.transaction_by_hash h = .ok none →
        get_transaction_block_number env h = .error (.collectError "could not get block"))
    ∧ (∀ tx, env.transaction_by_hash h = .ok (some tx) → tx.block_number = none →
        get_transaction_block_number env h
          = .error (.collectError "could not get block number"))
    ∧ (∀ tx n, env.transaction_by_hash h = .ok (some tx) → tx.block_number = some n →
        get_transaction_block_number env h = .ok (n % 2 ^ 32)) := by
  refine ⟨fun hr => ?_, fun r hr => ?_, fun ht => ?_, fun tx ht hb => ?_, fun tx n ht hb => ?_⟩
  · simp [get_transaction_logs, hr]
  · simp [get_transaction_logs, hr]
  · simp [get_transaction_block_number, ht]
  · simp [get_transaction_block_number, ht, hb]
  · simp [get_transaction_block_number, ht, hb]

/-- Witness for C8: absent receipt → not-found error; present receipt →
its logs; mined transaction → its block number. -/
theorem transaction_lookup_not_found_witness :
    get_transaction_logs fxEnvAbsent 0
        = .error (.collectError "transaction receipt not found")
    ∧ get_transaction_logs fxEnvOk 0 = .ok [3]
    ∧ get_transaction_block_number fxEnvOk 0 = .ok (5 % 2 ^ 32) :=
  ⟨(transaction_lookup_not_found fxEnvAbsent 0).1 rfl,
   (transaction_lookup_not_found fxEnvOk 0).2.1 ⟨some 7, [3]⟩ rfl,
   (transaction_lookup_not_found fxEnvOk 0).2.2.2.2 ⟨100, some 5⟩ 5 rfl rfl⟩

/-- Claim C9. Both transforms are deterministic and idempotent in the
spec's sense: run twice, each time on a fresh default (empty) column
store, with equal raw responses and equal schema registries, they produce
stores with identical contents (the results, including every column and
the row counter, are equal). -/
theorem transform_deterministic (r1 r2 : Option Nat × Option Bytes × List BlockTrace)
    (s1 s2 : Schemas) (hr : r1 = r2) (hs : s1 = s2) :
    process_vm_traces r1 VmTraceColumns.default s1
        = process_vm_traces r2 VmTraceColumns.default s2
    ∧ process_code_diffs r1 CodeDiffsColumns.default s1
        = process_code_diffs r2 CodeDiffsColumns.default s2 := by
  subst hr
  subst hs
  exact ⟨rfl, rfl⟩

/-- Witness for C9 at a concrete response and schema registry. -/
theorem transform_deterministic_witness :
    process_vm_traces (some 1, none, [fxBlockTraceVm]) VmTraceColumns.default fxSchemasBalFull
        = process_vm_traces (some 1, none, [fxBlockTraceVm]) VmTraceColumns.default
            fxSchemasBalFull
    ∧ process_code_diffs (some 1, none, [fxBlockTraceVm]) CodeDiffsColumns.default
          fxSchemasBalFull
        = process_code_diffs (some 1, none, [fxBlockTraceVm]) CodeDiffsColumns.default
            fxSchemasBalFull :=
  transform_deterministic (some 1, none, [fxBlockTraceVm]) (some 1, none, [fxBlockTraceVm])
    fxSchemasBalFull fxSchemasBalFull rfl rfl

/-- Claim C10. For ANY schema registry with no entry under the
`BalanceDiffs` key — in particular also one that does contain a
`VmTraces` entry — the VM-traces transform panics (the unchecked
`expect`, modelled as `none`) on every response and every store, instead
of returning an error value; whereas for any registry with no `CodeDiffs`
entry the code-diffs transform surfaces the missing schema as an explicit
error result with the store unchanged (its lookup precedes every
mutation). -/
theorem missing_schema_panic_vs_error (schemas1 schemas2 : Schemas)
    (response : Option Nat × Option Bytes × List BlockTrace)
    (vcols : VmTraceColumns) (dcols : CodeDiffsColumns)
    (h1 : schemas1 Datatype.BalanceDiffs = none)
    (h2 : schemas2 Datatype.CodeDiffs = none) :
    process_vm_traces response vcols schemas1 = none
    ∧ process_code_diffs response dcols schemas2
        = (dcols, .error "schema not provided") := by
  constructor
  · simp [process_vm_traces, h1]
  · simp [process_code_diffs, h2]

/-- Witness for C10 at the concrete registries `fxSchemasNoBal` (which
does register a `VmTraces` schema yet lacks `BalanceDiffs`) and
`fxSchemasNoCode`. -/
theorem missing_schema_panic_vs_error_witness :
    fxSchemasNoBal Datatype.BalanceDiffs = none
    ∧ fxSchemasNoBal Datatype.VmTraces = some fxFullTable
    ∧ process_vm_traces (some 1, none, [fxBlockTraceVm]) VmTraceColumns.default fxSchemasNoBal
        = none
    ∧ process_code_diffs (some 1, none, [fxBlockTraceDiff]) CodeDiffsColumns.default
          fxSchemasNoCode
        = (CodeDiffsColumns.default, .error "schema not provided") :=
  ⟨rfl, rfl,
   (missing_schema_panic_vs_error fxSchemasNoBal fxSchemasNoCode
      (some 1, none, [fxBlockTraceVm]) VmTraceColumns.default CodeDiffsColumns.default
      rfl rfl).1,
   (missing_schema_panic_vs_error fxSchemasNoBal fxSchemasNoCode
      (some 1, none, [fxBlockTraceDiff]) VmTraceColumns.default CodeDiffsColumns.default
      rfl rfl).2⟩

end Cryo
